import Mathlib

/-!
Verification of the HyperOrbit liquidation-opportunity monitor.

The definitions below are a shallow embedding of the monitor code:
- `src/app/lib/hyperLendProvider.ts` (health factor calculator, liquidation
  amount and profit helpers, borrower metrics from position data);
- the liquidator component (HyperLendLiquidatorMVP): the scan cycle
  `fetchBorrowers`, opportunity generation and `executeLiquidation`;
- `src/app/lib/hyperliquidDataProvider.ts` (price provider subscriber
  notification).

JavaScript numbers are modelled as rationals, with an explicit
`JsNum` type for values that may be Infinity or NaN (the health factor).
Timestamps (Date.now()) are passed in as natural-number parameters.
-/

namespace HyperOrbit

/-- HyperLendCollateralAsset from hyperLendProvider.ts (lines 16-21). -/
structure HyperLendCollateralAsset where
  symbol : String
  amount : ℚ
  valueUSD : ℚ
  liquidationThreshold : ℚ
deriving DecidableEq, Repr

/-- HyperLendDebtAsset from hyperLendProvider.ts (lines 23-28). -/
structure HyperLendDebtAsset where
  symbol : String
  amount : ℚ
  valueUSD : ℚ
  borrowRate : ℚ
deriving DecidableEq, Repr

/-- A JavaScript number that may be a finite value, Infinity, or NaN.
Used as the result type of the health factor computation, whose source
returns the JavaScript value Infinity when total debt is zero. -/
inductive JsNum where
  | finite (q : ℚ)
  | posInf
  | nan
deriving DecidableEq, Repr

/-- Ordering on health-factor results: finite values compare as rationals,
and positive infinity is above everything.  NaN is below nothing (as in
JavaScript, comparisons with NaN fail). -/
def JsNum.le : JsNum → JsNum → Prop
  | .finite a, .finite b => a ≤ b
  | .nan, _ => False
  | _, .nan => False
  | _, .posInf => True
  | .posInf, .finite _ => False

/-- Total risk-weighted collateral value: the first reduce in
calculateHealthFactor (hyperLendProvider.ts lines 551-554). -/
def totalCollateralValue (collateralAssets : List HyperLendCollateralAsset) : ℚ :=
  collateralAssets.foldl (fun sum asset => sum + asset.valueUSD * asset.liquidationThreshold) 0

/-- Total debt value: the second reduce in calculateHealthFactor
(hyperLendProvider.ts lines 556-559). -/
def totalDebtValue (debtAssets : List HyperLendDebtAsset) : ℚ :=
  debtAssets.foldl (fun sum asset => sum + asset.valueUSD) 0

/-- calculateHealthFactor from hyperLendProvider.ts (lines 547-564):
risk-weighted collateral over total debt, Infinity when total debt is 0. -/
def calculateHealthFactor (collateralAssets : List HyperLendCollateralAsset)
    (debtAssets : List HyperLendDebtAsset) : JsNum :=
  let totalCollateral := totalCollateralValue collateralAssets
  let totalDebt := totalDebtValue debtAssets
  if totalDebt = 0 then .posInf else .finite (totalCollateral / totalDebt)

/-- HyperLendBorrower from hyperLendProvider.ts (lines 6-14).  The
lastUpdate timestamp (Date.now() in the source) is a natural number. -/
structure HyperLendBorrower where
  address : String
  healthFactor : ℚ
  totalCollateral : ℚ
  totalDebt : ℚ
  collateralAssets : List HyperLendCollateralAsset
  debtAssets : List HyperLendDebtAsset
  lastUpdate : ℕ
deriving DecidableEq, Repr

/-- PositionData from hyperLendProvider.ts (lines 41-45); the total field,
a string parsed with parseFloat in the source, is modelled as a rational. -/
structure PositionData where
  coin : String
  total : ℚ
deriving DecidableEq, Repr

/-- The price map (Record of symbol to number) as an association list. -/
abbrev PriceRecord := List (String × ℚ)

/-- The price used for a position in calculateBorrowerMetrics (line 121):
prices[position.coin] with 0 substituted when the symbol is absent (and a
stored price of 0 also yields 0, as with the JavaScript or-operator). -/
def positionPrice (prices : PriceRecord) (coin : String) : ℚ :=
  (prices.lookup coin).getD 0

/-- getLiquidationThreshold from hyperLendProvider.ts (lines 227-238). -/
def getLiquidationThreshold (asset : String) : ℚ :=
  if asset = "ETH" then 85/100
  else if asset = "BTC" then 85/100
  else if asset = "USDC" then 95/100
  else if asset = "USDT" then 95/100
  else if asset = "HYPE" then 75/100
  else if asset = "USDe" then 85/100
  else 8/10

/-- getBorrowRate from hyperLendProvider.ts (lines 205-222); the async
wrapper never fails, so it is a pure table with default 0.05. -/
def getBorrowRate (asset : String) : ℚ :=
  if asset = "ETH" then 45/1000
  else if asset = "BTC" then 35/1000
  else if asset = "USDC" then 25/1000
  else if asset = "USDT" then 25/1000
  else if asset = "HYPE" then 85/1000
  else if asset = "USDe" then 65/1000
  else 5/100

/-- getAverageThreshold from hyperLendProvider.ts (lines 497-506).  When
the assets list is nonempty with total value 0 the source divides by zero
(JavaScript NaN); here rational division by zero yields 0.  No claim
depends on that branch. -/
def getAverageThreshold (assets : List HyperLendCollateralAsset) : ℚ :=
  if assets = [] then 8/10
  else
    let totalValue := (assets.map (fun a => a.valueUSD)).sum
    let weightedThreshold := (assets.map (fun a => a.liquidationThreshold * a.valueUSD)).sum
    weightedThreshold / totalValue

/-- Accumulator of the position loop in calculateBorrowerMetrics
(hyperLendProvider.ts lines 112-115). -/
structure MetricsAcc where
  totalCollateral : ℚ
  totalDebt : ℚ
  collateralAssets : List HyperLendCollateralAsset
  debtAssets : List HyperLendDebtAsset
deriving DecidableEq, Repr

/-- One iteration of the position loop in calculateBorrowerMetrics
(hyperLendProvider.ts lines 120-144): a positive balance is collateral, a
negative balance is debt, a missing price is replaced by 0. -/
def processPosition (prices : PriceRecord) (acc : MetricsAcc)
    (position : PositionData) : MetricsAcc :=
  let price := positionPrice prices position.coin
  let valueUSD := position.total * price
  if 0 < position.total then
    { acc with
      collateralAssets := acc.collateralAssets ++
        [⟨position.coin, position.total, valueUSD, getLiquidationThreshold position.coin⟩],
      totalCollateral := acc.totalCollateral + valueUSD * getLiquidationThreshold position.coin }
  else if position.total < 0 then
    let debtAmount := |position.total|
    { acc with
      debtAssets := acc.debtAssets ++
        [⟨position.coin, debtAmount, debtAmount * price, getBorrowRate position.coin⟩],
      totalDebt := acc.totalDebt + debtAmount * price }
  else acc

/-- calculateBorrowerMetrics from hyperLendProvider.ts (lines 110-163):
folds the position loop, returns null (none) when total debt is 0, else a
borrower record.  The source's catch branch is unreachable for this body
(pure arithmetic), so the only none-result is the zero-debt return. -/
def calculateBorrowerMetrics (address : String) (positions : List PositionData)
    (prices : PriceRecord) (now : ℕ) : Option HyperLendBorrower :=
  let acc := positions.foldl (processPosition prices) ⟨0, 0, [], []⟩
  if acc.totalDebt = 0 then none
  else some
    { address := address
      healthFactor := acc.totalCollateral / acc.totalDebt
      totalCollateral := acc.totalCollateral / getAverageThreshold acc.collateralAssets
      totalDebt := acc.totalDebt
      collateralAssets := acc.collateralAssets
      debtAssets := acc.debtAssets
      lastUpdate := now }

/-- LiquidationOpportunity from the liquidator component (part_005
lines 7-13). -/
structure LiquidationOpportunity where
  borrower : HyperLendBorrower
  profitEstimate : ℚ
  liquidationBonus : ℚ
  maxLiquidationValue : ℚ
  timestamp : ℕ
deriving DecidableEq, Repr

instance : DecidableRel
    (fun a b : HyperLendBorrower => a.healthFactor ≤ b.healthFactor) :=
  fun a b => inferInstanceAs (Decidable (a.healthFactor ≤ b.healthFactor))

instance : IsTotal HyperLendBorrower
    (fun a b => a.healthFactor ≤ b.healthFactor) :=
  ⟨fun a b => le_total a.healthFactor b.healthFactor⟩

instance : IsTrans HyperLendBorrower
    (fun a b => a.healthFactor ≤ b.healthFactor) :=
  ⟨fun _ _ _ h h' => le_trans h h'⟩

/-- The sort in fetchBorrowers (part_005 line 63): borrowers ordered by
health factor, lowest (most at risk) first. -/
def sortByHealthFactor (l : List HyperLendBorrower) : List HyperLendBorrower :=
  l.insertionSort (fun a b => a.healthFactor ≤ b.healthFactor)

/-- One liquidation opportunity as built in fetchBorrowers (part_005
lines 72-84): 50 percent of total debt, 5 percent bonus. -/
def mkOpportunity (now : ℕ) (b : HyperLendBorrower) : LiquidationOpportunity :=
  let maxLiquidationValue := b.totalDebt * (50/100)
  let liquidationBonus : ℚ := 5/100
  { borrower := b
    profitEstimate := maxLiquidationValue * liquidationBonus
    liquidationBonus := liquidationBonus
    maxLiquidationValue := maxLiquidationValue
    timestamp := now }

/-- The opportunity list built in fetchBorrowers (part_005 lines 69-85):
the borrowers with health factor below 1, kept in the sorted-borrower
order. -/
def computeOpportunities (now : ℕ) (sortedData : List HyperLendBorrower) :
    List LiquidationOpportunity :=
  (sortedData.filter (fun b => decide (b.healthFactor < 1))).map (mkOpportunity now)

/-- The component state touched by fetchBorrowers (part_005 lines 16-24). -/
structure ScanState where
  borrowers : List HyperLendBorrower
  liquidationOpportunities : List LiquidationOpportunity
  error : Option String
  loading : Bool
  lastUpdate : Option ℕ
deriving Repr

/-- Entry of fetchBorrowers (part_005 lines 55-60): clears the error, sets
the loading flag and proceeds with the fetch.  The source has no guard on
a scan already being in flight; the returned flag records whether the
fetch is performed, and it is true in every state. -/
def fetchBorrowersBegin (s : ScanState) : ScanState × Bool :=
  ({ s with error := none, loading := true }, true)

/-- Whether the manual Refresh button accepts a click (part_005 line 198:
it is disabled while loading).  The 30-second interval (line 108) invokes
fetchBorrowers without consulting this flag. -/
def refreshEnabled (s : ScanState) : Bool := !s.loading

/-- The complete fetchBorrowers cycle (part_005 lines 55-101), given the
outcome of the getBorrowers fetch: on success the borrower list is sorted
by health factor and the opportunity list rebuilt; on failure only the
error message is recorded; the finally block clears the loading flag. -/
def fetchBorrowersRun (s : ScanState) (now : ℕ)
    (fetched : Except String (List HyperLendBorrower)) : ScanState :=
  let s₀ := (fetchBorrowersBegin s).1
  match fetched with
  | .error e => { s₀ with error := some e, loading := false }
  | .ok data =>
      let sortedData := sortByHealthFactor data
      { s₀ with
        borrowers := sortedData
        lastUpdate := some now
        liquidationOpportunities := computeOpportunities now sortedData
        loading := false }

/-- calculateMaxLiquidationAmount from hyperLendProvider.ts (lines
576-582); the borrower argument is unused in the source body. -/
def calculateMaxLiquidationAmount (borrower : HyperLendBorrower)
    (debtAsset : HyperLendDebtAsset) : ℚ :=
  min (debtAsset.amount * (50/100)) (debtAsset.valueUSD * (50/100))

/-- The possible synchronous responses of an execution request.  The
claimed DUPLICATE_IN_PROGRESS rejection is representable so that its
absence from the code can be stated. -/
inductive ExecResponse where
  | started
  | duplicateRejected
deriving DecidableEq, Repr

/-- The synchronous entry of executeLiquidation (part_005 lines 113-117):
the borrower address is added to the in-progress set (a JavaScript Set, so
adding an existing member changes nothing) and the execution proceeds.
The source makes no membership test and has no rejection path. -/
def executeLiquidationStart (inProgress : List String) (addr : String) :
    ExecResponse × List String :=
  (.started, if addr ∈ inProgress then inProgress else addr :: inProgress)

/-- PriceFeed from hyperliquidDataProvider.ts. -/
structure PriceFeed where
  symbol : String
  price : ℚ
  timestamp : ℕ
  source : String
deriving DecidableEq, Repr

/-- The provider's price cache, symbol to latest feed entry. -/
abbrev PriceCache := List (String × PriceFeed)

/-- A subscriber callback: it receives a fresh copy of the cache (the
source passes new Map(this.priceCache), so the provider's own cache is
out of the callback's reach) and may throw, modelled by Except. -/
def PriceCallback := PriceCache → Except String Unit

/-- The recorded outcome of invoking one callback on the cache snapshot:
none when it returns, the logged message when it throws. -/
def callbackOutcome (cache : PriceCache) (cb : PriceCallback) : Option String :=
  match cb cache with
  | .ok _ => none
  | .error e => some e

/-- The subscriber loop of notifySubscribers (hyperliquidDataProvider.ts
lines 467-475): each callback is invoked inside its own try/catch with a
copy of the cache; a thrown error is logged and the loop continues. -/
def notifyLoop (cache : PriceCache) : List PriceCallback → List (Option String)
  | [] => []
  | cb :: rest =>
    match cb cache with
    | .ok _ => none :: notifyLoop cache rest
    | .error e => some e :: notifyLoop cache rest

/-- notifySubscribers: runs the loop and leaves the cache untouched. -/
def notifySubscribers (cache : PriceCache) (subs : List PriceCallback) :
    PriceCache × List (Option String) :=
  (cache, notifyLoop cache subs)

/-- Folding addition of a mapped value over a list equals the starting
value plus the sum of the mapped list. -/
theorem foldl_add_eq_sum {α : Type} (f : α → ℚ) (l : List α) (s : ℚ) :
    l.foldl (fun acc x => acc + f x) s = s + (l.map f).sum := by
  induction l generalizing s with
  | nil => simp
  | cons a t ih => simp [List.foldl_cons, ih, add_assoc]

theorem totalCollateralValue_eq_sum (l : List HyperLendCollateralAsset) :
    totalCollateralValue l = (l.map (fun a => a.valueUSD * a.liquidationThreshold)).sum := by
  simpa using foldl_add_eq_sum (fun a => a.valueUSD * a.liquidationThreshold) l 0

theorem totalDebtValue_eq_sum (l : List HyperLendDebtAsset) :
    totalDebtValue l = (l.map (fun a => a.valueUSD)).sum := by
  simpa using foldl_add_eq_sum (fun a => a.valueUSD) l 0

/-- C1: whenever the total debt USD value is nonzero, calculateHealthFactor
returns the sum over collateral of USD value times liquidationThreshold,
divided by the sum over debt of USD value.  The 5 ETH at threshold 0.85
against 12000 USDC example (prices ETH=3000, USDC=1) is the witness below,
where the value is 12750/12000 = 1.0625. -/
theorem calculateHealthFactor_ratio (c : List HyperLendCollateralAsset)
    (d : List HyperLendDebtAsset)
    (h : (d.map (fun a => a.valueUSD)).sum ≠ 0) :
    calculateHealthFactor c d =
      .finite ((c.map (fun a => a.valueUSD * a.liquidationThreshold)).sum
        / (d.map (fun a => a.valueUSD)).sum) := by
  simp [calculateHealthFactor, totalCollateralValue_eq_sum, totalDebtValue_eq_sum, h]

theorem calculateHealthFactor_ratio_witness :
    (([⟨"USDC", 12000, 12000 * 1, 25/1000⟩] : List HyperLendDebtAsset).map
        (fun a => a.valueUSD)).sum ≠ 0 ∧
    calculateHealthFactor
        [⟨"ETH", 5, 5 * 3000, 85/100⟩] [⟨"USDC", 12000, 12000 * 1, 25/1000⟩] =
      .finite (10625/10000) :=
  ⟨by norm_num, (calculateHealthFactor_ratio _ _ (by norm_num)).trans
    (by norm_num [JsNum.finite.injEq])⟩

/-- C2: for every collateral list and every debt list whose total USD value
is exactly 0, calculateHealthFactor returns the Infinity sentinel, and in
particular not NaN (and, being a total function, it cannot throw). -/
theorem calculateHealthFactor_zeroDebt (c : List HyperLendCollateralAsset)
    (d : List HyperLendDebtAsset)
    (h : (d.map (fun a => a.valueUSD)).sum = 0) :
    calculateHealthFactor c d = .posInf ∧ calculateHealthFactor c d ≠ .nan := by
  have hd : totalDebtValue d = 0 := by rw [totalDebtValue_eq_sum, h]
  exact ⟨by simp [calculateHealthFactor, hd], by simp [calculateHealthFactor, hd]⟩

theorem calculateHealthFactor_zeroDebt_witness :
    (([⟨"USDC", 0, 0, 25/1000⟩] : List HyperLendDebtAsset).map
        (fun a => a.valueUSD)).sum = 0 ∧
    (calculateHealthFactor [⟨"ETH", 5, 15000, 85/100⟩] [⟨"USDC", 0, 0, 25/1000⟩]
        = .posInf ∧
      calculateHealthFactor [⟨"ETH", 5, 15000, 85/100⟩] [⟨"USDC", 0, 0, 25/1000⟩]
        ≠ .nan) :=
  ⟨by norm_num, calculateHealthFactor_zeroDebt _ _ (by norm_num)⟩

/-- C8: calculateHealthFactor is monotonically non-decreasing in a single
collateral position's amount (its USD value being amount times a fixed
nonnegative price), holding the other collateral positions, the debt
positions, the threshold and the prices fixed, provided the threshold is
nonnegative and debt USD values are nonnegative as the data model requires. -/
theorem calculateHealthFactor_mono
    (l₁ l₂ : List HyperLendCollateralAsset) (d : List HyperLendDebtAsset)
    (sym : String) (θ price a a' : ℚ)
    (hθ : 0 ≤ θ) (hp : 0 ≤ price) (ha : a ≤ a')
    (hd : ∀ x ∈ d, 0 ≤ x.valueUSD) :
    JsNum.le
      (calculateHealthFactor (l₁ ++ ⟨sym, a, a * price, θ⟩ :: l₂) d)
      (calculateHealthFactor (l₁ ++ ⟨sym, a', a' * price, θ⟩ :: l₂) d) := by
  have hD0 : 0 ≤ totalDebtValue d := by
    rw [totalDebtValue_eq_sum]
    refine List.sum_nonneg ?_
    intro x hx
    obtain ⟨y, hy, rfl⟩ := List.mem_map.mp hx
    exact hd y hy
  have hN : totalCollateralValue (l₁ ++ ⟨sym, a, a * price, θ⟩ :: l₂)
      ≤ totalCollateralValue (l₁ ++ ⟨sym, a', a' * price, θ⟩ :: l₂) := by
    rw [totalCollateralValue_eq_sum, totalCollateralValue_eq_sum]
    simp only [List.map_append, List.map_cons, List.sum_append, List.sum_cons]
    have : a * price * θ ≤ a' * price * θ := by
      apply mul_le_mul_of_nonneg_right _ hθ
      exact mul_le_mul_of_nonneg_right ha hp
    linarith
  by_cases hz : totalDebtValue d = 0
  · simp [calculateHealthFactor, hz, JsNum.le]
  · simp only [calculateHealthFactor, hz, if_false]
    simpa [JsNum.le] using div_le_div_of_nonneg_right hN hD0

theorem calculateHealthFactor_mono_witness :
    JsNum.le
      (calculateHealthFactor
        ([] ++ (⟨"ETH", 5, 5 * 3000, 85/100⟩ : HyperLendCollateralAsset) :: [])
        [⟨"USDC", 12000, 12000, 25/1000⟩])
      (calculateHealthFactor
        ([] ++ (⟨"ETH", 6, 6 * 3000, 85/100⟩ : HyperLendCollateralAsset) :: [])
        [⟨"USDC", 12000, 12000, 25/1000⟩]) :=
  calculateHealthFactor_mono [] [] _ "ETH" _ _ _ _
    (by norm_num) (by norm_num) (by norm_num) (by decide)

/-- Every asset record produced by one step of the position loop carries
valueUSD equal to its amount times the (possibly defaulted-to-0) price of
its symbol, provided the accumulator already satisfies this. -/
theorem processPosition_value (prices : PriceRecord) (acc : MetricsAcc) (p : PositionData)
    (hc : ∀ a ∈ acc.collateralAssets, a.valueUSD = a.amount * positionPrice prices a.symbol)
    (hd : ∀ a ∈ acc.debtAssets, a.valueUSD = a.amount * positionPrice prices a.symbol) :
    (∀ a ∈ (processPosition prices acc p).collateralAssets,
        a.valueUSD = a.amount * positionPrice prices a.symbol) ∧
    (∀ a ∈ (processPosition prices acc p).debtAssets,
        a.valueUSD = a.amount * positionPrice prices a.symbol) := by
  unfold processPosition
  by_cases h1 : 0 < p.total
  · simp only [if_pos h1]
    refine ⟨?_, hd⟩
    intro a ha
    rcases List.mem_append.mp ha with h | h
    · exact hc a h
    · simp only [List.mem_singleton] at h
      subst h
      rfl
  · by_cases h2 : p.total < 0
    · simp only [if_neg h1, if_pos h2]
      refine ⟨hc, ?_⟩
      intro a ha
      rcases List.mem_append.mp ha with h | h
      · exact hd a h
      · simp only [List.mem_singleton] at h
        subst h
        rfl
    · simp only [if_neg h1, if_neg h2]
      exact ⟨hc, hd⟩

theorem foldl_processPosition_value (prices : PriceRecord) (ps : List PositionData)
    (acc : MetricsAcc)
    (hc : ∀ a ∈ acc.collateralAssets, a.valueUSD = a.amount * positionPrice prices a.symbol)
    (hd : ∀ a ∈ acc.debtAssets, a.valueUSD = a.amount * positionPrice prices a.symbol) :
    (∀ a ∈ (ps.foldl (processPosition prices) acc).collateralAssets,
        a.valueUSD = a.amount * positionPrice prices a.symbol) ∧
    (∀ a ∈ (ps.foldl (processPosition prices) acc).debtAssets,
        a.valueUSD = a.amount * positionPrice prices a.symbol) := by
  induction ps generalizing acc with
  | nil => exact ⟨hc, hd⟩
  | cons p t ih =>
    have step := processPosition_value prices acc p hc hd
    exact ih (processPosition prices acc p) step.1 step.2

/-- C3 counterexample: on positions referencing the symbol XYZ, which has
no price in the price map, calculateBorrowerMetrics does not fail; it
returns a borrower record in which the XYZ debt position silently carries
a USD value of 0 (price substituted by 0), contradicting the claim that a
MissingPriceError is propagated. -/
theorem calculateBorrowerMetrics_missingPrice_counterexample :
    calculateBorrowerMetrics "0xB"
        [⟨"ETH", 2⟩, ⟨"XYZ", -100⟩, ⟨"USDC", -500⟩]
        [("ETH", 3000), ("USDC", 1)] 0 =
      some ⟨"0xB", 51/5, 6000, 500,
        [⟨"ETH", 2, 6000, 85/100⟩],
        [⟨"XYZ", 100, 0, 5/100⟩, ⟨"USDC", 500, 500, 25/1000⟩], 0⟩ := by
  simp [calculateBorrowerMetrics, processPosition, positionPrice,
    getLiquidationThreshold, getBorrowRate, getAverageThreshold, List.lookup]
  norm_num

/-- C3 amended: calculateBorrowerMetrics never raises a MissingPriceError
(no such error exists in the code); a position whose symbol has no entry in
the price map is silently priced at 0, so every collateral or debt asset
of the returned borrower whose symbol is unpriced has USD value 0. -/
theorem calculateBorrowerMetrics_missingPrice
    (address : String) (positions : List PositionData) (prices : PriceRecord)
    (now : ℕ) (b : HyperLendBorrower)
    (hb : calculateBorrowerMetrics address positions prices now = some b) :
    (∀ a ∈ b.collateralAssets, prices.lookup a.symbol = none → a.valueUSD = 0) ∧
    (∀ a ∈ b.debtAssets, prices.lookup a.symbol = none → a.valueUSD = 0) := by
  unfold calculateBorrowerMetrics at hb
  by_cases hz : (positions.foldl (processPosition prices) ⟨0, 0, [], []⟩).totalDebt = 0
  · simp [hz] at hb
  · simp only [hz, if_false, Option.some.injEq] at hb
    have hinv := foldl_processPosition_value prices positions ⟨0, 0, [], []⟩
      (by intro a ha; simp at ha) (by intro a ha; simp at ha)
    subst hb
    constructor
    · intro a ha hnone
      have hv := hinv.1 a ha
      rw [hv, positionPrice, hnone]
      simp
    · intro a ha hnone
      have hv := hinv.2 a ha
      rw [hv, positionPrice, hnone]
      simp

theorem calculateBorrowerMetrics_missingPrice_witness :
    ([("ETH", (3000 : ℚ)), ("USDC", 1)] : PriceRecord).lookup "XYZ" = none ∧
    (⟨"XYZ", 100, 0, 5/100⟩ : HyperLendDebtAsset).valueUSD = 0 := by
  have hb : calculateBorrowerMetrics "0xB"
      [⟨"ETH", 2⟩, ⟨"XYZ", -100⟩, ⟨"USDC", -500⟩]
      [("ETH", 3000), ("USDC", 1)] 0 =
      some ⟨"0xB", 51/5, 6000, 500,
        [⟨"ETH", 2, 6000, 85/100⟩],
        [⟨"XYZ", 100, 0, 5/100⟩, ⟨"USDC", 500, 500, 25/1000⟩], 0⟩ := by
    simp [calculateBorrowerMetrics, processPosition, positionPrice,
      getLiquidationThreshold, getBorrowRate, getAverageThreshold, List.lookup]
    norm_num
  refine ⟨by simp [List.lookup], ?_⟩
  exact (calculateBorrowerMetrics_missingPrice _ _ _ _ _ hb).2
    ⟨"XYZ", 100, 0, 5/100⟩ (by simp) (by simp [List.lookup])

/-- Unfolding equation for a successful fetch cycle. -/
theorem fetchBorrowersRun_ok (s : ScanState) (now : ℕ)
    (data : List HyperLendBorrower) :
    fetchBorrowersRun s now (.ok data) =
      { borrowers := sortByHealthFactor data
        liquidationOpportunities := computeOpportunities now (sortByHealthFactor data)
        error := none
        loading := false
        lastUpdate := some now } := rfl

/-- C7: when the borrower-snapshot fetch of a cycle fails, the previously
published borrower list and opportunity list are left unchanged, the
failure is recorded in the error field, the loading flag is cleared, and a
subsequent successful cycle (the next timer tick) updates normally. -/
theorem fetchBorrowers_failure_preserves (s : ScanState) (now now2 : ℕ)
    (e : String) (data : List HyperLendBorrower) :
    (fetchBorrowersRun s now (.error e)).borrowers = s.borrowers ∧
    (fetchBorrowersRun s now (.error e)).liquidationOpportunities
      = s.liquidationOpportunities ∧
    (fetchBorrowersRun s now (.error e)).error = some e ∧
    (fetchBorrowersRun s now (.error e)).loading = false ∧
    (fetchBorrowersRun (fetchBorrowersRun s now (.error e)) now2 (.ok data)).borrowers
      = sortByHealthFactor data :=
  ⟨rfl, rfl, rfl, rfl, rfl⟩

/-- C5 counterexample: a scan over two liquidatable borrowers, the first
more at risk (health factor 0) with total debt 100, the second at health
factor one half with total debt 10000, publishes estimated profits
[2.5, 250], which is not in descending order: the list is ordered by
health factor, not by profit. -/
theorem opportunities_not_profit_sorted_counterexample :
    ((fetchBorrowersRun ⟨[], [], none, false, none⟩ 0
        (.ok [⟨"0xB", 1/2, 9000, 10000, [], [], 0⟩,
              ⟨"0xA", 0, 85, 100, [], [], 0⟩])).liquidationOpportunities.map
      (fun o => o.profitEstimate)) = [5/2, 250] ∧
    ¬ ((5/2 : ℚ) ≥ 250) := by
  constructor
  · rw [fetchBorrowersRun_ok]
    norm_num [sortByHealthFactor, List.insertionSort, List.orderedInsert,
      computeOpportunities, mkOpportunity]
  · norm_num

/-- C5 amended: the opportunity list published after a successful scan is
sorted by the borrower's health factor in ascending order (most at-risk
first), not by estimated profit. -/
theorem opportunities_sorted_byHealthFactor (s : ScanState) (now : ℕ)
    (data : List HyperLendBorrower) :
    ((fetchBorrowersRun s now (.ok data)).liquidationOpportunities).Pairwise
      (fun o₁ o₂ => o₁.borrower.healthFactor ≤ o₂.borrower.healthFactor) := by
  have hs : List.Pairwise
      (fun a b : HyperLendBorrower => a.healthFactor ≤ b.healthFactor)
      (sortByHealthFactor data) := by
    unfold sortByHealthFactor
    exact List.sorted_insertionSort
      (fun a b => a.healthFactor ≤ b.healthFactor) data
  have hf := hs.filter (fun b => decide (b.healthFactor < 1))
  rw [fetchBorrowersRun_ok]
  show (computeOpportunities now (sortByHealthFactor data)).Pairwise _
  unfold computeOpportunities
  exact List.Pairwise.map _ (fun a b h => h) hf

/-- C4 counterexample: a liquidatable borrower with total debt 1000 and a
single collateral asset worth 10 USD yields an opportunity whose
maxLiquidationValue is 500, strictly above min(0.5 times debt, collateral
value) = 10: the collateral cap of the claim is absent from the code. -/
theorem maxLiquidation_exceeds_collateral_counterexample :
    ((fetchBorrowersRun ⟨[], [], none, false, none⟩ 0
        (.ok [⟨"0xA", 0, 10, 1000, [⟨"ETH", 1, 10, 85/100⟩],
          [⟨"USDC", 1000, 1000, 25/1000⟩], 0⟩])).liquidationOpportunities.map
      (fun o => o.maxLiquidationValue)) = [500] ∧
    ¬ ((500 : ℚ) ≤ min ((1000 : ℚ) * (50/100))
        ((([⟨"ETH", 1, 10, 85/100⟩] : List HyperLendCollateralAsset).map
          (fun a => a.valueUSD)).sum)) := by
  constructor
  · rw [fetchBorrowersRun_ok]
    norm_num [sortByHealthFactor, List.insertionSort, List.orderedInsert,
      computeOpportunities, mkOpportunity]
  · norm_num

/-- C4 amended: every generated opportunity has maxLiquidationValue equal
to 50 percent of the borrower's total debt with no collateral cap (and
profit equal to 5 percent of that), while calculateMaxLiquidationAmount
returns min(debt amount times 0.5, debt USD value times 0.5), also
without any collateral bound. -/
theorem maxLiquidation_amended (s : ScanState) (now : ℕ)
    (data : List HyperLendBorrower) :
    (∀ o ∈ (fetchBorrowersRun s now (.ok data)).liquidationOpportunities,
        o.maxLiquidationValue = o.borrower.totalDebt * (50/100) ∧
        o.profitEstimate = o.borrower.totalDebt * (50/100) * (5/100)) ∧
    (∀ (b : HyperLendBorrower) (d : HyperLendDebtAsset),
        calculateMaxLiquidationAmount b d
          = min (d.amount * (50/100)) (d.valueUSD * (50/100))) := by
  constructor
  · rw [fetchBorrowersRun_ok]
    intro o ho
    unfold computeOpportunities at ho
    obtain ⟨b, hb, rfl⟩ := List.mem_map.mp ho
    exact ⟨rfl, rfl⟩
  · intro b d
    rfl

theorem maxLiquidation_amended_witness :
    (mkOpportunity 0 ⟨"0xA", 0, 10, 1000, [], [], 0⟩).maxLiquidationValue
        = (mkOpportunity 0 ⟨"0xA", 0, 10, 1000, [], [], 0⟩).borrower.totalDebt
          * (50/100) ∧
    (mkOpportunity 0 ⟨"0xA", 0, 10, 1000, [], [], 0⟩).profitEstimate
        = (mkOpportunity 0 ⟨"0xA", 0, 10, 1000, [], [], 0⟩).borrower.totalDebt
          * (50/100) * (5/100) :=
  (maxLiquidation_amended ⟨[], [], none, false, none⟩ 0
      [⟨"0xA", 0, 10, 1000, [], [], 0⟩]).1
    (mkOpportunity 0 ⟨"0xA", 0, 10, 1000, [], [], 0⟩)
    (by
      rw [fetchBorrowersRun_ok]
      norm_num [sortByHealthFactor, List.insertionSort, List.orderedInsert,
        computeOpportunities, mkOpportunity])

/-- C6 counterexample: with an execution already pending for address 0xabc,
a second request for 0xabc is not rejected: the entry returns started, not
the claimed DUPLICATE_IN_PROGRESS rejection. -/
theorem executeLiquidation_noRejection_counterexample :
    ("0xabc" ∈ (["0xabc"] : List String)) ∧
    (executeLiquidationStart ["0xabc"] "0xabc").1 ≠ ExecResponse.duplicateRejected :=
  ⟨List.mem_singleton.mpr rfl, by simp [executeLiquidationStart]⟩

/-- C6 amended: executeLiquidation performs no duplicate check: a call for
an address whose execution is already in flight proceeds (started) and
leaves the in-progress set unchanged; no DUPLICATE_IN_PROGRESS error
exists in the code (only the UI button is disabled while pending). -/
theorem executeLiquidation_secondCallProceeds (inProgress : List String)
    (addr : String) (h : addr ∈ inProgress) :
    (executeLiquidationStart inProgress addr).1 = ExecResponse.started ∧
    (executeLiquidationStart inProgress addr).2 = inProgress := by
  simp [executeLiquidationStart, h]

theorem executeLiquidation_secondCallProceeds_witness :
    (executeLiquidationStart ["0xabc"] "0xabc").1 = ExecResponse.started ∧
    (executeLiquidationStart ["0xabc"] "0xabc").2 = ["0xabc"] :=
  executeLiquidation_secondCallProceeds ["0xabc"] "0xabc"
    (List.mem_singleton.mpr rfl)

/-- C9 counterexample: in a state whose loading flag is set (a scan is in
flight), triggering fetchBorrowers still proceeds with the fetch: the
trigger is not dropped, so a second concurrent scan starts. -/
theorem scanTrigger_whileLoading_counterexample :
    ((⟨[], [], none, true, none⟩ : ScanState).loading = true) ∧
    (fetchBorrowersBegin ⟨[], [], none, true, none⟩).2 = true :=
  ⟨rfl, rfl⟩

/-- C9 amended: the scan entry has no reentrancy guard: in every state,
including states with a scan already in flight, a trigger proceeds with
the fetch; only the manual Refresh button is disabled while loading. -/
theorem fetchBorrowersBegin_noGuard (s : ScanState) :
    (fetchBorrowersBegin s).2 = true ∧ refreshEnabled s = !s.loading :=
  ⟨rfl, rfl⟩

/-- The notification loop records, for each subscriber in order, the
outcome of invoking it on the cache snapshot. -/
theorem notifyLoop_eq_map (cache : PriceCache) (subs : List PriceCallback) :
    notifyLoop cache subs = subs.map (callbackOutcome cache) := by
  induction subs with
  | nil => rfl
  | cons cb rest ih =>
    cases h : cb cache with
    | ok u => simp [notifyLoop, callbackOutcome, h, ih]
    | error e => simp [notifyLoop, callbackOutcome, h, ih]

/-- C10: notifySubscribers leaves the provider's price cache unchanged and
invokes every registered subscriber on the full cache snapshot: the
recorded outcome of each subscriber depends only on its own callback
applied to the cache, so one callback throwing never prevents the others
from being notified and never corrupts the cache. -/
theorem notifySubscribers_isolated (cache : PriceCache)
    (subs : List PriceCallback) :
    (notifySubscribers cache subs).1 = cache ∧
    (notifySubscribers cache subs).2 = subs.map (callbackOutcome cache) :=
  ⟨rfl, notifyLoop_eq_map cache subs⟩

end HyperOrbit
